import Mathlib

/-!
Verification development for the dynamo2es-lambda record-transformation and
batch-dispatch pipeline.  JavaScript values are shallowly embedded as the
`Value` type; the functions below are direct translations of
`src/lib/handler.js`, `src/lib/utils.js`, `src/lib/schemas.js` and
`src/lib/errors`.  DynamoDB attribute decoding (`DynamoDB.Converter.unmarshall`)
is out of scope of the specification and is treated as identity on
already-decoded maps.
-/

namespace D2E

/-- A JavaScript value, as far as the pipeline observes it.  `fn` marks a
function-typed value opaquely (the raw options object may carry hooks). -/
inductive Value where
  | undefined
  | null
  | bool (b : Bool)
  | num (n : Int)
  | str (s : String)
  | obj (fields : List (String × Value))
  | arr (elems : List Value)
  | fn

/-- `value === undefined`. -/
def Value.isUndefined : Value → Bool
  | .undefined => true
  | _ => false

/-- JavaScript truthiness: `undefined`, `null`, `false`, `0` and `""` are
falsy, everything else is truthy. -/
def jsFalsy : Value → Bool
  | .undefined => true
  | .null => true
  | .bool b => !b
  | .num n => n == 0
  | .str s => s == ""
  | _ => false

/-- Is the value a JavaScript object (joi's `object()` type)? -/
def Value.isObj : Value → Bool
  | .obj _ => true
  | _ => false

/-- Is the value a function? -/
def Value.isFn : Value → Bool
  | .fn => true
  | _ => false

mutual

/-- JavaScript string conversion, used by template literals and
`Array.prototype.join`. -/
def jsToString : Value → String
  | .undefined => "undefined"
  | .null => "null"
  | .bool true => "true"
  | .bool false => "false"
  | .num n => toString n
  | .str s => s
  | .obj _ => "[object Object]"
  | .fn => "function"
  | .arr elems => String.intercalate "," (jsToStringList elems)

def jsToStringList : List Value → List String
  | [] => []
  | v :: vs => jsToString v :: jsToStringList vs

end

/-- Property lookup on an object value; `undefined` when absent or when the
receiver is not an object. -/
def Value.lookup : Value → String → Value
  | .obj fields, k => ((fields.find? (fun kv => kv.1 == k)).map (fun kv => kv.2)).getD .undefined
  | _, _ => .undefined

/-- Nested lookup along a list of path segments. -/
def getPath : Value → List String → Value
  | v, [] => v
  | v, k :: rest => match v.lookup k with
    | .undefined => .undefined
    | w => getPath w rest

/-- Split a dotted lodash path into its segments (`String.splitOn "."`,
restated by structural recursion over the character list). -/
def splitPathAux : List Char → List Char → List String
  | [], cur => [String.mk cur.reverse]
  | c :: rest, cur =>
    if c = '.' then String.mk cur.reverse :: splitPathAux rest []
    else splitPathAux rest (c :: cur)

def splitPath (p : String) : List String := splitPathAux p.toList []

/-- `_.get(entry, path)`: lodash nested get, with the dotted path split into
segments; an `undefined` path resolves to `undefined`. -/
def lodashGet (entry : Value) (path : Option String) : Value :=
  match path with
  | none => .undefined
  | some p => getPath entry (splitPath p)

/-- `_.pick(obj, paths)`: keep only the listed fields. -/
def lodashPick (v : Value) (fields : List String) : Value :=
  .obj (fields.filterMap (fun k =>
    match v.lookup k with
    | .undefined => none
    | w => some (k, w)))

/-- `Object.keys`. -/
def objKeys : Value → List String
  | .obj fields => fields.map (fun kv => kv.1)
  | _ => []

/-- The three decoded maps of one stream record (`unmarshall` output). -/
structure ParsedRecord where
  Keys : Value
  NewImage : Value
  OldImage : Value

/-- The `dynamodb` sub-object of one raw stream record. -/
structure StreamData where
  Keys : Value
  NewImage : Value := Value.undefined
  OldImage : Value := Value.undefined

/-- One raw entry of the invocation event's `Records` list. -/
structure ChangeRecord where
  eventName : String
  dynamodb : StreamData

/-- The invocation event. -/
structure Event where
  Records : List ChangeRecord

/-- The error values the pipeline can raise (src/lib/errors). -/
inductive JsError where
  | fieldNotFound (details : ParsedRecord) (path : Option String)
  | unknownEventName (details : ChangeRecord)
  | validation (message : String)
  | other (message : String)

/-- `replaceInvalidChars` from src/lib/utils.js: map characters that are
illegal in an index name to `-`, strip one leading `_`/`-`/`+`, lowercase. -/
def invalidIndexChar (c : Char) : Bool :=
  c = '\\' || c = '/' || c = '*' || c = '?' || c = '\"' || c = '<' || c = '>'
    || c = '|' || c = ' ' || c = ','

def replaceInvalidChars (value : String) : String :=
  let s1 := String.mk (value.toList.map (fun c => if invalidIndexChar c then '-' else c))
  let s2 := String.mk (s1.toList.map (fun c => if c = '#' then '-' else c))
  let s3 := match s2.toList with
    | c :: rest => if c = '_' || c = '-' || c = '+' then String.mk rest else s2
    | [] => s2
  String.mk (s3.toList.map Char.toLower)

/-- `replaceInvalidChars` applied to string values (the `isIndex` branch of
`getField`). -/
def indexSafe : Value → Value
  | .str s => .str (replaceInvalidChars s)
  | v => v

/-- `utils.getField`: probe `Keys`, `NewImage`, `OldImage` in that order and
return the first defined value; throw `FieldNotFoundError` when none. -/
def getField (parsedRecord : ParsedRecord) (path : Option String) (isIndex : Bool) :
    Except JsError Value :=
  let value := [parsedRecord.Keys, parsedRecord.NewImage, parsedRecord.OldImage].foldl
    (fun acc entry => if acc.isUndefined then lodashGet entry path else acc) Value.undefined
  if value.isUndefined then
    .error (.fieldNotFound parsedRecord path)
  else if isIndex then
    .ok (indexSafe value)
  else
    .ok value

/-- A field option: a single path or a list of paths. -/
inductive FieldSpec where
  | one (path : String)
  | many (paths : List String)

/-- `utils.assembleField`: a list of paths is resolved pointwise and joined
with the separator; a single path resolves directly. -/
def assembleField (parsedRecord : ParsedRecord) (paths : Option FieldSpec)
    (separator : String) (isIndex : Bool) : Except JsError Value :=
  match paths with
  | some (.many ps) =>
    (ps.mapM (fun p => getField parsedRecord (some p) isIndex)).map
      (fun vs => .str (String.intercalate separator (vs.map jsToString)))
  | some (.one p) => getField parsedRecord (some p) isIndex
  | none => getField parsedRecord none isIndex

example : getField ⟨.obj [("a", .str "x")], .obj [], .obj []⟩ (some "a") false = .ok (.str "x") := rfl

example : getField ⟨.obj [], .obj [], .obj [("a", .str "old")]⟩ (some "a") false = .ok (.str "old") := rfl

/-- `DynamoDB.Converter.unmarshall({NewImage: {M: record.dynamodb.NewImage || {}}, ...})`,
with attribute decoding treated as identity on the decoded maps. -/
def parseRecord (record : ChangeRecord) : ParsedRecord :=
  { Keys := record.dynamodb.Keys
    NewImage := if jsFalsy record.dynamodb.NewImage then .obj [] else record.dynamodb.NewImage
    OldImage := if jsFalsy record.dynamodb.OldImage then .obj [] else record.dynamodb.OldImage }

/-- The `actionDescriptionObj` assembled per record: `_type`, `parent`,
`version`/`versionType` are optional keys (absent when not attached, the
`delete actionDescriptionObj._type` omission included). -/
structure ActionDescription where
  _index : String
  _type : Option Value
  _id : Value
  parent : Option Value
  version : Option Int
  versionType : Option String

/-- One element of the flat bulk `body` array: an index action descriptor, a
following document, or a delete action descriptor. -/
inductive BodyItem where
  | index (d : ActionDescription)
  | document (v : Value)
  | delete (d : ActionDescription)

/-- One entry of the accumulated per-record metadata list. -/
structure Meta where
  record : ChangeRecord
  parsed : ParsedRecord
  action : BodyItem
  document : Value

/-- The argument of one `esclient.bulk` call: `{ ...bulkOpts, body: actions }`. -/
structure BulkRequest where
  bulkOpts : Value
  body : List BodyItem

/-- The validated handler options, as consumed by the pipeline.  Hooks and
resolvers are embedded as Lean functions; awaited asynchronous hooks are
modeled by their settled outcome (`Except`). -/
structure Options where
  bulk : Value := Value.obj []
  client : Nat → BulkRequest → Except JsError Value
  beforeHook : Option (Event → Value → Except JsError Unit) := none
  afterHook : Option (Event → Value → Value → List Meta → Except JsError Value) := none
  recordErrorHook : Option (Event → Value → JsError → Except JsError Unit) := none
  errorHook : Option (Event → Value → JsError → Except JsError Value) := none
  transformRecordHook : Option (Value → Value → Except JsError Value) := none
  separator : Option String := none
  idField : Option FieldSpec := none
  idResolver : Option (Value → Value → Except JsError Value) := none
  index : Option String := none
  indexField : Option FieldSpec := none
  indexPrefixStr : Option String := none
  parentField : Option String := none
  pickFields : Option (List String) := none
  retryOptions : Option Nat := none
  type : Option String := none
  typeField : Option FieldSpec := none
  versionField : Option String := none
  versionResolver : Option (Value → Value → Except JsError Value) := none

/-- `separator = '.'` destructuring default. -/
def effSeparator (o : Options) : String := o.separator.getD "."

/-- `indexPrefix = ''` destructuring default. -/
def effIndexNamePrefix (o : Options) : String := o.indexPrefixStr.getD ""

/-- The candidate document: new-image, restricted to `pickFields` when
configured. -/
def resolveDoc (o : Options) (parsedRecord : ParsedRecord) : Value :=
  match o.pickFields with
  | some fields => lodashPick parsedRecord.NewImage fields
  | none => parsedRecord.NewImage

/-- `id = idResolver(doc, parsedRecord.OldImage)` with the default resolver
falling back to `idField`, then to the key names of the keys-map. -/
def resolveId (o : Options) (parsedRecord : ParsedRecord) (doc : Value) : Except JsError Value :=
  match o.idResolver with
  | some f => f doc parsedRecord.OldImage
  | none =>
    match o.idField with
    | some spec => assembleField parsedRecord (some spec) (effSeparator o) false
    | none =>
      assembleField parsedRecord (some (.many (objKeys parsedRecord.Keys))) (effSeparator o) false

/-- `_index: options.index || indexPrefix + assembleField(parsedRecord, indexField, separator)`. -/
def resolveIndexName (o : Options) (parsedRecord : ParsedRecord) : Except JsError String :=
  let fallback : Except JsError String :=
    match assembleField parsedRecord o.indexField (effSeparator o) false with
    | .error e => .error e
    | .ok v => .ok (effIndexNamePrefix o ++ jsToString v)
  match o.index with
  | some s => if s == "" then fallback else .ok s
  | none => fallback

/-- `_type: options.type || (options.typeField && assembleField(parsedRecord, typeField, separator))`. -/
def resolveType (o : Options) (parsedRecord : ParsedRecord) : Except JsError Value :=
  let fallback : Except JsError Value :=
    match o.typeField with
    | none => .ok .undefined
    | some spec => assembleField parsedRecord (some spec) (effSeparator o) false
  match o.type with
  | some s => if s == "" then fallback else .ok (.str s)
  | none => fallback

/-- `if (options.parentField) actionDescriptionObj.parent = utils.getField(...)`. -/
def resolveParentInto (o : Options) (parsedRecord : ParsedRecord) (d : ActionDescription) :
    Except JsError ActionDescription :=
  match o.parentField with
  | none => .ok d
  | some pf =>
    match getField parsedRecord (some pf) false with
    | .error e => .error e
    | .ok p => .ok { d with parent := some p }

/-- Modelled from the spec: the `VERSION` schema referenced by the handler as
`schemas.VERSION` is absent from src/lib/schemas.js (the file exports only
`HANDLER_OPTIONS` and `EVENT`); per the spec, the resolved version must
"be a number ≥ 0 (failing with a labeled validation error naming the field,
or 'resolved version' for resolver-sourced values)". -/
def versionErrors (label : String) (v : Value) : List String :=
  match v with
  | .num n => if n < 0 then ["\"" ++ label ++ "\" must be larger than or equal to 0"] else []
  | .undefined => ["\"" ++ label ++ "\" is required"]
  | _ => ["\"" ++ label ++ "\" must be a number"]

/-- `utils.validate(version, schemas.VERSION.label(options.versionField || 'resolved version'))`. -/
def validateVersion (label : String) (v : Value) : Except JsError Int :=
  match versionErrors label v with
  | [] =>
    match v with
    | .num n => .ok n
    | _ => .error (.validation "unreachable")
  | es => .error (.validation (String.intercalate ". " es))

/-- `versionResolver ? versionResolver(doc, parsedRecord.OldImage)
: utils.getField(parsedRecord, options.versionField)`. -/
def computeVersionValue (o : Options) (parsedRecord : ParsedRecord) (doc : Value) :
    Except JsError Value :=
  match o.versionResolver with
  | some f => f doc parsedRecord.OldImage
  | none => getField parsedRecord o.versionField false

/-- The version block: when `versionResolver` or `versionField` is configured,
compute the version, validate it, and attach `(version, versionType="external")`. -/
def resolveVersionInto (o : Options) (parsedRecord : ParsedRecord) (doc : Value)
    (d : ActionDescription) : Except JsError ActionDescription :=
  if o.versionResolver.isSome || o.versionField.isSome then
    match computeVersionValue o parsedRecord doc with
    | .error e => .error e
    | .ok v =>
      match validateVersion (o.versionField.getD "resolved version") v with
      | .error e => .error e
      | .ok n => .ok { d with version := some n, versionType := some "external" }
  else
    .ok d

/-- `doc = await options.transformRecordHook(doc, parsedRecord.OldImage)` when
the hook is configured. -/
def applyTransformHook (o : Options) (parsedRecord : ParsedRecord) (doc0 : Value) :
    Except JsError Value :=
  match o.transformRecordHook with
  | none => .ok doc0
  | some f => f doc0 parsedRecord.OldImage

/-- Steps 1–8 of the record transformation: decode, document, id, index, type
(with blank omission), parent, version, transform hook; `none` when the
transform hook returned a falsy document (record dropped). -/
def buildDescription (o : Options) (record : ChangeRecord) :
    Except JsError (Option (ActionDescription × Value)) :=
  let parsedRecord := parseRecord record
  let doc0 := resolveDoc o parsedRecord
  match resolveId o parsedRecord doc0 with
  | .error e => .error e
  | .ok id =>
    match resolveIndexName o parsedRecord with
    | .error e => .error e
    | .ok idx =>
      match resolveType o parsedRecord with
      | .error e => .error e
      | .ok ty =>
        let d0 : ActionDescription :=
          { _index := idx
            _type := if jsFalsy ty then none else some ty
            _id := id
            parent := none
            version := none
            versionType := none }
        match resolveParentInto o parsedRecord d0 with
        | .error e => .error e
        | .ok d1 =>
          match resolveVersionInto o parsedRecord doc0 d1 with
          | .error e => .error e
          | .ok d2 =>
            match applyTransformHook o parsedRecord doc0 with
            | .error e => .error e
            | .ok doc => .ok (if jsFalsy doc then none else some (d2, doc))

/-- The event-kind dispatch (step 9): insert/modify push the index action and
the document, remove increments a present version and pushes the delete action
alone, anything else fails with `UnknownEventNameError` carrying the record. -/
def transformRecord (o : Options) (record : ChangeRecord) :
    Except JsError (Option (List BodyItem × Meta)) :=
  match buildDescription o record with
  | .error e => .error e
  | .ok none => .ok none
  | .ok (some (d, doc)) =>
    if record.eventName = "INSERT" ∨ record.eventName = "MODIFY" then
      .ok (some ([.index d, .document doc], ⟨record, parseRecord record, .index d, doc⟩))
    else if record.eventName = "REMOVE" then
      let d2 := match d.version with
        | some v => { d with version := some (v + 1) }
        | none => d
      .ok (some ([.delete d2], ⟨record, parseRecord record, .delete d2, doc⟩))
    else
      .error (.unknownEventName record)

/-- The reduce accumulator `{ actions: [], meta: [] }`, extended with
`hookCalls`, the observable trace of record-error-hook invocations (the
errors passed to the hook, in order). -/
structure Acc where
  actions : List BodyItem
  meta : List Meta
  hookCalls : List JsError

def initAcc : Acc := ⟨[], [], []⟩

/-- One iteration of the record reduce, try/catch included: a transformation
error is routed to `recordErrorHook` when configured (and swallowed unless the
hook itself rejects), otherwise rethrown. -/
def recordStep (o : Options) (event : Event) (context : Value) (acc : Acc)
    (record : ChangeRecord) : Except JsError Acc :=
  match transformRecord o record with
  | .ok none => .ok acc
  | .ok (some (acts, m)) =>
    .ok { acc with actions := acc.actions ++ acts, meta := acc.meta ++ [m] }
  | .error err =>
    match o.recordErrorHook with
    | none => .error err
    | some hook =>
      match hook event context err with
      | .ok _ => .ok { acc with hookCalls := acc.hookCalls ++ [err] }
      | .error e2 => .error e2

/-- The sequential `event.Records.reduce` fold. -/
def foldRecords (o : Options) (event : Event) (context : Value) :
    List ChangeRecord → Acc → Except JsError Acc
  | [], acc => .ok acc
  | r :: rs, acc =>
    match recordStep o event context acc r with
    | .error e => .error e
    | .ok acc2 => foldRecords o event context rs acc2

/-- `schemas.EVENT` applied to a typed event (`allowUnknown: true`): the keys
map must be an object, the images objects when present. -/
def recordShapeOk (r : ChangeRecord) : Bool :=
  r.dynamodb.Keys.isObj
    && (r.dynamodb.NewImage.isUndefined || r.dynamodb.NewImage.isObj)
    && (r.dynamodb.OldImage.isUndefined || r.dynamodb.OldImage.isObj)

def validateEvent (event : Event) : Except JsError Unit :=
  if event.Records.all recordShapeOk then .ok ()
  else .error (.validation "child \"Records\" fails because the stream record shape is invalid")

/-- Before-hook, event validation, then the record fold. -/
def assembleBatch (o : Options) (event : Event) (context : Value) : Except JsError Acc :=
  match (match o.beforeHook with | none => Except.ok () | some f => f event context) with
  | .error e => .error e
  | .ok _ =>
    match validateEvent event with
    | .error e => .error e
    | .ok _ => foldRecords o event context event.Records initAcc

/-- The canonical empty-batch result `{ took: 0, errors: false, items: [] }`. -/
def emptyBulkResult : Value :=
  .obj [("took", .num 0), ("errors", .bool false), ("items", .arr [])]

def DEFAULT_RETRY_COUNT : Nat := 0

/-- `{ retries: DEFAULT_RETRY_COUNT, ...options.retryOptions }`. -/
def effRetries (o : Options) : Nat := o.retryOptions.getD DEFAULT_RETRY_COUNT

/-- promise-retry: run the operation, retry on rejection while attempts
remain, surface the last rejection; the second component counts the calls
made.  The operation takes the zero-based call number (a stateful client). -/
def promiseRetryGo (f : Nat → Except JsError Value) :
    Nat → Nat → Except JsError Value × Nat
  | remaining, n =>
    match f n with
    | .ok v => (.ok v, n + 1)
    | .error e =>
      match remaining with
      | 0 => (.error e, n + 1)
      | r + 1 => promiseRetryGo f r (n + 1)

def promiseRetry (retries : Nat) (f : Nat → Except JsError Value) :
    Except JsError Value × Nat :=
  promiseRetryGo f retries 0

/-- The batch stage: empty action list short-circuits with the canonical
result and no client call; otherwise the bulk request is dispatched under
promise-retry.  The second component is the trace of `esclient.bulk` calls. -/
def runCore (o : Options) (event : Event) (context : Value) :
    Except JsError (Value × List Meta) × List BulkRequest :=
  match assembleBatch o event context with
  | .error e => (.error e, [])
  | .ok acc =>
    if acc.actions.length = 0 then
      (.ok (emptyBulkResult, acc.meta), [])
    else
      let req : BulkRequest := ⟨o.bulk, acc.actions⟩
      let rr := promiseRetry (effRetries o) (fun n => o.client n req)
      (match rr.1 with
       | .ok result => .ok (result, acc.meta)
       | .error e => .error e,
       List.replicate rr.2 req)

/-- The record-error-hook invocation trace of one invocation. -/
def recordHookTrace (o : Options) (event : Event) (context : Value) : List JsError :=
  match assembleBatch o event context with
  | .ok acc => acc.hookCalls
  | .error _ => []

/-- The `.then` stage: a configured after-hook may replace the result, but its
`undefined` return value falls back to the dispatch result. -/
def afterStage (o : Options) (event : Event) (context : Value) : Except JsError Value :=
  match (runCore o event context).1 with
  | .error e => .error e
  | .ok (result, meta) =>
    match o.afterHook with
    | none => .ok result
    | some f =>
      match f event context result meta with
      | .error e => .error e
      | .ok hookResult => .ok (if hookResult.isUndefined then result else hookResult)

/-- One full invocation outcome: the settled result, the trace of client bulk
calls and the trace of record-error-hook calls. -/
structure Outcome where
  result : Except JsError Value
  bulkRequests : List BulkRequest
  hookCalls : List JsError

/-- The `.catch` stage wired onto the pipeline: a configured error-hook
unconditionally recovers a batch-level failure with whatever it returns. -/
def invoke (o : Options) (event : Event) (context : Value) : Outcome :=
  let final :=
    match afterStage o event context with
    | .ok v => .ok v
    | .error e =>
      match o.errorHook with
      | none => .error e
      | some f => f event context e
  ⟨final, (runCore o event context).2, recordHookTrace o event context⟩

/-- joi clause shape `child "k" fails because [inner]`. -/
def childClause (k : String) (inner : String) : String :=
  "child \"" ++ k ++ "\" fails because [" ++ inner ++ "]"

def mustBe (k : String) (what : String) : String :=
  "\"" ++ k ++ "\" must be " ++ what

def checkObjectKey (k : String) (v : Value) : List String :=
  if v.isObj then [] else [childClause k (mustBe k "an object")]

def checkFuncKey (k : String) (v : Value) : List String :=
  if v.isFn then [] else [childClause k (mustBe k "a Function")]

def checkBoolKey (k : String) (v : Value) : List String :=
  match v with
  | .bool _ => []
  | _ => [childClause k (mustBe k "a boolean")]

def checkStringKey (k : String) (allowEmpty : Bool) (v : Value) : List String :=
  match v with
  | .str s =>
    if s = "" && !allowEmpty then
      [childClause k ("\"" ++ k ++ "\" is not allowed to be empty")]
    else []
  | _ => [childClause k (mustBe k "a string")]

/-- `FIELD = joi.string().min(1)`. -/
def fieldOk : Value → Bool
  | .str s => s ≠ ""
  | _ => false

/-- `[FIELD, joi.array().min(1).items(FIELD)]`: a field name or a non-empty
list of field names (item-level messages are collapsed into the alternative
clause). -/
def checkFieldListKey (k : String) (v : Value) : List String :=
  match v with
  | .str s =>
    if s = "" then [childClause k ("\"" ++ k ++ "\" is not allowed to be empty")] else []
  | .arr es =>
    if es.isEmpty || !(es.all fieldOk) then
      [childClause k (mustBe k "a string" ++ ", " ++ mustBe k "an array")]
    else []
  | _ => [childClause k (mustBe k "a string" ++ ", " ++ mustBe k "an array")]

/-- The `elasticsearch`/`es` sub-schema, validated shallowly: `client` and
`bulk` must be objects, and a `body` key inside bulk options is forbidden. -/
def checkEsKey (k : String) (v : Value) : List String :=
  match v with
  | .obj _ =>
    let clientErrs :=
      match v.lookup "client" with
      | .undefined => []
      | w => if w.isObj then [] else [childClause "client" (mustBe "client" "an object")]
    let bulkErrs :=
      match v.lookup "bulk" with
      | .undefined => []
      | w =>
        if w.isObj then
          match w.lookup "body" with
          | .undefined => []
          | _ => [childClause "bulk" (childClause "body" "\"body\" is not allowed")]
        else [childClause "bulk" (mustBe "bulk" "an object")]
    match clientErrs ++ bulkErrs with
    | [] => []
    | es => [childClause k (String.intercalate ", " es)]
  | _ => [childClause k (mustBe k "an object")]

def funcOptionKeys : List String :=
  ["beforeHook", "afterHook", "recordErrorHook", "errorHook", "transformRecordHook",
   "idResolver", "versionResolver"]

def stringOptionKeys : List String :=
  ["index", "indexPrefix", "parentField", "type", "versionField"]

def fieldListOptionKeys : List String :=
  ["idField", "indexField", "typeField", "pickFields"]

/-- Modelled from the spec: the HANDLER_OPTIONS schema present in
src/lib/schemas.js is a stale version that declares none of `indexPrefix`,
`parentField`, `versionField`, `versionResolver`, `idResolver`,
`transformRecordHook`, `retryOptions` or `bunyan`, all of which the handler
reads; the per-key checks of the current schema are modelled from the spec
("type/shape checks per field (string vs. function vs. array vs. object) as
declared per option", "nested client/bulk-options sub-objects are validated
shallowly") and from the clause texts the repository's tests expect. -/
def keyClauses (k : String) (v : Value) : List String :=
  if k = "elasticsearch" ∨ k = "es" then checkEsKey k v
  else if k = "bunyan" then checkBoolKey k v
  else if funcOptionKeys.contains k then checkFuncKey k v
  else if k = "separator" then checkStringKey k true v
  else if stringOptionKeys.contains k then checkStringKey k false v
  else if fieldListOptionKeys.contains k then checkFieldListKey k v
  else if k = "retryOptions" then checkObjectKey k v
  else ["\"" ++ k ++ "\" is not allowed"]

/-- joi presence: a key whose value is `undefined` counts as absent. -/
def hasOpt (raw : Value) (k : String) : Bool :=
  !(raw.lookup k).isUndefined

/-- The per-key clauses of every present key, in input order. -/
def childClauses : List (String × Value) → List String
  | [] => []
  | (k, v) :: rest => (if v.isUndefined then [] else keyClauses k v) ++ childClauses rest

/-- The exclusive-peer clause of an `xor` rule. -/
def xorClauses (raw : Value) (k1 k2 : String) : List String :=
  if hasOpt raw k1 && hasOpt raw k2 then
    ["\"options\" contains a conflict between exclusive peers [" ++ k1 ++ ", " ++ k2 ++ "]"]
  else if !hasOpt raw k1 && !hasOpt raw k2 then
    ["\"options\" must contain at least one of [" ++ k1 ++ ", " ++ k2 ++ "]"]
  else []

/-- The optional-exclusive-peer clause of an `oxor` rule. -/
def oxorClauses (raw : Value) (k1 k2 : String) : List String :=
  if hasOpt raw k1 && hasOpt raw k2 then
    ["\"options\" contains a conflict between optional exclusive peers [" ++ k1 ++ ", " ++ k2 ++ "]"]
  else []

/-- Modelled from the spec: the object-level rules of the current
HANDLER_OPTIONS schema, absent from the stale src/lib/schemas.js for
`indexPrefix` and the version/id resolvers — "exclusivity: `index` XOR
`indexField`; `type` XOR `typeField`; `idField` optionally-XOR `idResolver`;
`versionField` optionally-XOR `versionResolver`" and "dependency:
`indexPrefix` requires `indexField` and forbids `index`". -/
def ruleClauses (raw : Value) : List String :=
  (if hasOpt raw "elasticsearch" && hasOpt raw "es" then
    ["\"elasticsearch\" conflict with forbidden peer \"es\""] else [])
  ++ oxorClauses raw "idField" "idResolver"
  ++ oxorClauses raw "versionField" "versionResolver"
  ++ xorClauses raw "index" "indexField"
  ++ xorClauses raw "type" "typeField"
  ++ (if hasOpt raw "indexPrefix" && !hasOpt raw "indexField" then
    ["\"indexPrefix\" missing required peer \"indexField\""] else [])
  ++ (if hasOpt raw "index" && hasOpt raw "indexPrefix" then
    ["\"index\" conflict with forbidden peer \"indexPrefix\""] else [])

/-- All violated constraints of the raw options object, collected (joi with
`abortEarly: false`). -/
def handlerOptionsErrors (raw : Value) : List String :=
  match raw with
  | .obj fields => childClauses fields ++ ruleClauses raw
  | _ => ["\"options\" must be an object"]

/-- `utils.validate(options, schemas.HANDLER_OPTIONS)` at construction:
collects every violation and throws one `ValidationError` whose message is
the '. '-join of the clauses. -/
def validateOptions (raw : Value) : Except JsError Unit :=
  match handlerOptionsErrors raw with
  | [] => .ok ()
  | es => .error (.validation (String.intercalate ". " es))

theorem isUndefined_eval : Value.undefined.isUndefined = true := rfl

/-- C2: for every parsed record and field path, field resolution probes the
Keys map, then the NewImage map, then the OldImage map, in that fixed order,
and returns the value from the first map in which the path resolves to a
defined value (later maps are not consulted); if no map yields a defined value
it fails with FieldNotFoundError; in particular a path defined only in
OldImage resolves successfully. -/
theorem c2_getField_probe_order (pr : ParsedRecord) (p : Option String) :
    getField pr p false =
      (if (lodashGet pr.Keys p).isUndefined = false then .ok (lodashGet pr.Keys p)
       else if (lodashGet pr.NewImage p).isUndefined = false then .ok (lodashGet pr.NewImage p)
       else if (lodashGet pr.OldImage p).isUndefined = false then .ok (lodashGet pr.OldImage p)
       else .error (.fieldNotFound pr p)) := by
  cases h1 : (lodashGet pr.Keys p).isUndefined <;>
    cases h2 : (lodashGet pr.NewImage p).isUndefined <;>
      cases h3 : (lodashGet pr.OldImage p).isUndefined <;>
        simp [getField, isUndefined_eval, h1, h2, h3]

/-- C1: any record-transformation error is routed to the recordErrorHook when
one is configured — the hook receives the error, the error is swallowed and
the record contributes no action or metadata — and with no recordErrorHook
the error propagates and aborts the batch (the reduce rethrows and an
assembly error reaches dispatch as a failure with no bulk call); a record
whose event-kind tag is not INSERT, MODIFY or REMOVE fails with
UnknownEventNameError carrying the raw record as its details. -/
theorem c1_record_error_routing
    (o : Options) (event : Event) (context : Value) (acc : Acc)
    (record : ChangeRecord) (err : JsError) :
    (∀ hook u, o.recordErrorHook = some hook →
      transformRecord o record = .error err →
      hook event context err = .ok u →
      recordStep o event context acc record =
        .ok { acc with hookCalls := acc.hookCalls ++ [err] }) ∧
    (o.recordErrorHook = none →
      transformRecord o record = .error err →
      recordStep o event context acc record = .error err ∧
      ∀ rest, foldRecords o event context (record :: rest) acc = .error err) ∧
    (assembleBatch o event context = .error err →
      runCore o event context = (.error err, [])) ∧
    (∀ d doc, record.eventName ≠ "INSERT" → record.eventName ≠ "MODIFY" →
      record.eventName ≠ "REMOVE" →
      buildDescription o record = .ok (some (d, doc)) →
      transformRecord o record = .error (.unknownEventName record)) := by
  refine ⟨?_, ?_, ?_, ?_⟩
  · intro hook u hhook htr hok
    simp only [recordStep, htr, hhook, hok]
  · intro hnone htr
    refine ⟨?_, ?_⟩
    · simp only [recordStep, htr, hnone]
    · intro rest
      simp only [foldRecords, recordStep, htr, hnone]
  · intro hab
    simp only [runCore, hab]
  · intro d doc h1 h2 h3 hb
    simp only [transformRecord, hb]
    have hins : ¬(record.eventName = "INSERT" ∨ record.eventName = "MODIFY") := by
      rintro (h | h)
      · exact h1 h
      · exact h2 h
    rw [if_neg hins, if_neg h3]

/-- C4: when the accumulated action list is empty, the pipeline returns the
canonical result (took 0, no errors, no items) and never invokes the external
client's bulk operation. -/
theorem c4_empty_batch_short_circuit
    (o : Options) (event : Event) (context : Value) (acc : Acc)
    (hassemble : assembleBatch o event context = .ok acc)
    (hempty : acc.actions = []) :
    runCore o event context = (.ok (emptyBulkResult, acc.meta), []) ∧
    (invoke o event context).bulkRequests = [] ∧
    (o.afterHook = none → (invoke o event context).result = .ok emptyBulkResult) := by
  have hcore : runCore o event context = (.ok (emptyBulkResult, acc.meta), []) := by
    simp [runCore, hassemble, hempty]
  refine ⟨hcore, ?_, ?_⟩
  · simp only [invoke, hcore]
  · intro hafter
    simp only [invoke, afterStage, hcore, hafter]

theorem promiseRetryGo_always_fail (f : Nat → Except JsError Value) (e : JsError)
    (hf : ∀ n, f n = .error e) :
    ∀ r s, promiseRetryGo f r s = (.error e, s + r + 1) := by
  intro r
  induction r with
  | zero =>
    intro s
    simp [promiseRetryGo, hf s]
  | succ k ih =>
    intro s
    have := ih (s + 1)
    simp only [promiseRetryGo, hf s, this]
    congr 1
    omega

theorem promiseRetry_calls_once (f : Nat → Except JsError Value) :
    (promiseRetry 0 f).2 = 1 := by
  unfold promiseRetry promiseRetryGo
  cases f 0 <;> rfl

/-- C5: for a non-empty action list, with no retryOptions configured the bulk
operation is invoked exactly once regardless of success or failure; with
retries = N configured and a client rejecting on every call, bulk is invoked
exactly N + 1 times with the identical request body each time and the
rejection finally surfaced is the client's error. -/
theorem c5_retry_dispatch
    (o : Options) (event : Event) (context : Value) (acc : Acc)
    (hassemble : assembleBatch o event context = .ok acc)
    (hnonempty : acc.actions ≠ []) :
    (o.retryOptions = none →
      (runCore o event context).2 = [⟨o.bulk, acc.actions⟩]) ∧
    (∀ N e, o.retryOptions = some N →
      (∀ n, o.client n ⟨o.bulk, acc.actions⟩ = .error e) →
      (runCore o event context).2 = List.replicate (N + 1) ⟨o.bulk, acc.actions⟩ ∧
      (runCore o event context).1 = .error e) := by
  have hlen : ¬(acc.actions.length = 0) := by
    simpa [List.length_eq_zero] using hnonempty
  refine ⟨?_, ?_⟩
  · intro hnone
    have h1 : (promiseRetry (effRetries o) (fun n => o.client n ⟨o.bulk, acc.actions⟩)).2 = 1 := by
      simp only [effRetries, hnone, Option.getD, DEFAULT_RETRY_COUNT]
      exact promiseRetry_calls_once _
    simp only [runCore, hassemble, if_neg hlen, h1, List.replicate]
  · intro N e hsome hfail
    have hr : promiseRetry (effRetries o) (fun n => o.client n ⟨o.bulk, acc.actions⟩) =
        (.error e, N + 1) := by
      simp only [effRetries, hsome, Option.getD]
      have := promiseRetryGo_always_fail (fun n => o.client n ⟨o.bulk, acc.actions⟩) e hfail N 0
      simpa [promiseRetry] using this
    constructor
    · simp only [runCore, hassemble, if_neg hlen, hr]
    · simp only [runCore, hassemble, if_neg hlen, hr]

theorem resolveParentInto_ok (o : Options) (pr : ParsedRecord) (d d' : ActionDescription)
    (h : resolveParentInto o pr d = .ok d') :
    d'._index = d._index ∧ d'._type = d._type ∧ d'._id = d._id ∧
      d'.version = d.version ∧ d'.versionType = d.versionType := by
  unfold resolveParentInto at h
  split at h
  · cases h
    exact ⟨rfl, rfl, rfl, rfl, rfl⟩
  · split at h
    · simp at h
    · cases h
      exact ⟨rfl, rfl, rfl, rfl, rfl⟩

theorem resolveVersionInto_ok (o : Options) (pr : ParsedRecord) (doc : Value)
    (d d' : ActionDescription) (h : resolveVersionInto o pr doc d = .ok d') :
    d'._index = d._index ∧ d'._type = d._type ∧ d'._id = d._id ∧
      ((d'.version = d.version ∧ d'.versionType = d.versionType) ∨
        (∃ n, d'.version = some n ∧ d'.versionType = some "external")) := by
  unfold resolveVersionInto at h
  split at h
  · split at h
    · simp at h
    · split at h
      · simp at h
      · cases h
        exact ⟨rfl, rfl, rfl, Or.inr ⟨_, rfl, rfl⟩⟩
  · cases h
    exact ⟨rfl, rfl, rfl, Or.inl ⟨rfl, rfl⟩⟩

theorem except_error_ne_ok {α β : Type} (e : α) (b : β) :
    (Except.error e : Except α β) ≠ .ok b := by
  intro h
  cases h

/-- Inversion of a successful record description: the `_type` attribute is the
(blank-omitted) resolved type, and `version`/`versionType` are attached
together or not at all. -/
theorem buildDescription_ok_inv (o : Options) (r : ChangeRecord)
    (d : ActionDescription) (doc : Value)
    (h : buildDescription o r = .ok (some (d, doc))) :
    ∃ ty, resolveType o (parseRecord r) = .ok ty ∧
      d._type = (if jsFalsy ty then none else some ty) ∧
      (d.version = none ∨ d.versionType = some "external") := by
  simp only [buildDescription] at h
  rcases hid : resolveId o (parseRecord r) (resolveDoc o (parseRecord r)) with e | id
  · rw [hid] at h
    exact absurd h (except_error_ne_ok e _)
  simp only [hid] at h
  rcases hidx : resolveIndexName o (parseRecord r) with e | idx
  · rw [hidx] at h
    exact absurd h (except_error_ne_ok e _)
  simp only [hidx] at h
  rcases hty : resolveType o (parseRecord r) with e | ty
  · rw [hty] at h
    exact absurd h (except_error_ne_ok e _)
  simp only [hty] at h
  rcases hpar : resolveParentInto o (parseRecord r)
      ⟨idx, if jsFalsy ty then none else some ty, id, none, none, none⟩ with e | d1
  · rw [hpar] at h
    exact absurd h (except_error_ne_ok e _)
  simp only [hpar] at h
  rcases hver : resolveVersionInto o (parseRecord r) (resolveDoc o (parseRecord r)) d1
    with e | d2
  · rw [hver] at h
    exact absurd h (except_error_ne_ok e _)
  simp only [hver] at h
  rcases hdoc : applyTransformHook o (parseRecord r) (resolveDoc o (parseRecord r))
    with e | doc2
  · rw [hdoc] at h
    exact absurd h (except_error_ne_ok e _)
  simp only [hdoc] at h
  cases hfd : jsFalsy doc2
  · simp [hfd] at h
    obtain ⟨hd2, hdoc2⟩ := h
    subst hd2
    have hp := resolveParentInto_ok o (parseRecord r) _ d1 hpar
    have hv := resolveVersionInto_ok o (parseRecord r) _ d1 _ hver
    refine ⟨ty, rfl, ?_, ?_⟩
    · rw [hv.2.1, hp.2.1]
    · rcases hv.2.2.2 with ⟨h1, _⟩ | ⟨n, h1, h2⟩
      · exact Or.inl (by rw [h1, hp.2.2.2.1])
      · exact Or.inr h2
  · simp [hfd] at h

/-- C3: a REMOVE record whose descriptor resolved a version emits a single
delete action (no document follows) whose version is the resolved value plus
one, the versionType being "external"; INSERT/MODIFY records carry the
resolved value unchanged, followed by the document. -/
theorem c3_remove_increments_version
    (o : Options) (record : ChangeRecord) (d : ActionDescription) (doc : Value) (v : Int)
    (hbuild : buildDescription o record = .ok (some (d, doc)))
    (hver : d.version = some v) :
    d.versionType = some "external" ∧
    (record.eventName = "REMOVE" →
      transformRecord o record =
        .ok (some ([.delete { d with version := some (v + 1) }],
          ⟨record, parseRecord record, .delete { d with version := some (v + 1) }, doc⟩))) ∧
    ((record.eventName = "INSERT" ∨ record.eventName = "MODIFY") →
      transformRecord o record =
        .ok (some ([.index d, .document doc],
          ⟨record, parseRecord record, .index d, doc⟩))) := by
  obtain ⟨ty, _, _, hvt⟩ := buildDescription_ok_inv o record d doc hbuild
  refine ⟨?_, ?_, ?_⟩
  · rcases hvt with hnone | hext
    · rw [hver] at hnone
      cases hnone
    · exact hext
  · intro hrem
    have hne : ¬(record.eventName = "INSERT" ∨ record.eventName = "MODIFY") := by
      rw [hrem]
      rintro (h | h) <;> simp at h
    simp only [transformRecord, hbuild, if_neg hne, if_pos hrem, hver]
  · intro him
    simp only [transformRecord, hbuild, if_pos him]

/-- C9: the descriptor's type attribute is the literal `type` option when
configured, otherwise the value resolved from `typeField`; when neither yields
a non-blank value the type attribute is omitted entirely (not set to an empty
string). -/
theorem c9_type_resolution
    (o : Options) (record : ChangeRecord) (d : ActionDescription) (doc : Value)
    (hbuild : buildDescription o record = .ok (some (d, doc))) :
    (∀ s, o.type = some s → s ≠ "" → d._type = some (.str s)) ∧
    (o.type = none → ∀ spec, o.typeField = some spec →
      ∃ v, assembleField (parseRecord record) (some spec) (effSeparator o) false = .ok v ∧
        d._type = (if jsFalsy v then none else some v)) ∧
    (o.type = none → o.typeField = none → d._type = none) := by
  obtain ⟨ty, hty, hdt, _⟩ := buildDescription_ok_inv o record d doc hbuild
  refine ⟨?_, ?_, ?_⟩
  · intro s hs hne
    have : resolveType o (parseRecord record) = .ok (.str s) := by
      simp only [resolveType, hs]
      rw [if_neg (by simpa using hne)]
    rw [this] at hty
    cases hty
    rw [hdt]
    simp [jsFalsy, hne]
  · intro hnone spec hspec
    have heq : resolveType o (parseRecord record) =
        assembleField (parseRecord record) (some spec) (effSeparator o) false := by
      simp only [resolveType, hnone, hspec]
    refine ⟨ty, ?_, hdt⟩
    rw [← heq]
    exact hty
  · intro hnone hfnone
    have : resolveType o (parseRecord record) = .ok .undefined := by
      simp only [resolveType, hnone, hfnone]
    rw [this] at hty
    cases hty
    rw [hdt]
    rfl

/-- C7: a resolved version must be a number that is at least zero: zero is
accepted and attached verbatim, a negative number or a non-number fails with
a validation error labeled with the versionField name, or with
"resolved version" when the value came from the resolver. -/
theorem c7_version_validation
    (o : Options) (pr : ParsedRecord) (doc : Value) (d : ActionDescription) :
    (∀ f v, o.versionResolver = none → o.versionField = some f →
      getField pr (some f) false = .ok (.num v) → 0 ≤ v →
      resolveVersionInto o pr doc d =
        .ok { d with version := some v, versionType := some "external" }) ∧
    (∀ f v, o.versionResolver = none → o.versionField = some f →
      getField pr (some f) false = .ok (.num v) → v < 0 →
      resolveVersionInto o pr doc d =
        .error (.validation ("\"" ++ f ++ "\" must be larger than or equal to 0"))) ∧
    (∀ f w, o.versionResolver = none → o.versionField = some f →
      getField pr (some f) false = .ok w → (∀ n, w ≠ .num n) → w ≠ .undefined →
      resolveVersionInto o pr doc d =
        .error (.validation ("\"" ++ f ++ "\" must be a number"))) ∧
    (∀ g w, o.versionResolver = some g → o.versionField = none →
      g doc pr.OldImage = .ok w → (∀ n, w ≠ .num n) → w ≠ .undefined →
      resolveVersionInto o pr doc d =
        .error (.validation ("\"resolved version\" must be a number"))) := by
  refine ⟨?_, ?_, ?_, ?_⟩
  · intro f v hres hf hget hv
    simp only [resolveVersionInto, computeVersionValue, hres, hf, hget, Option.isSome_some,
      Bool.or_true, if_true, Option.getD_some, validateVersion, versionErrors,
      if_neg (by omega : ¬v < 0)]
  · intro f v hres hf hget hv
    simp only [resolveVersionInto, computeVersionValue, hres, hf, hget, Option.isSome_some,
      Bool.or_true, if_true, Option.getD_some, validateVersion, versionErrors, if_pos hv]
    rfl
  · intro f w hres hf hget hnum hundef
    simp only [resolveVersionInto, computeVersionValue, hres, hf, hget, Option.isSome_some,
      Bool.or_true, if_true, Option.getD_some, validateVersion]
    cases w with
    | num n => exact absurd rfl (hnum n)
    | undefined => exact absurd rfl hundef
    | null => rfl
    | bool b => rfl
    | str s => rfl
    | obj fields => rfl
    | arr elems => rfl
    | fn => rfl
  · intro g w hres hf hget hnum hundef
    simp only [resolveVersionInto, computeVersionValue, hres, hf, hget, Option.isSome_some,
      Bool.true_or, if_true, Option.getD_none, validateVersion]
    cases w with
    | num n => exact absurd rfl (hnum n)
    | undefined => exact absurd rfl hundef
    | null => rfl
    | bool b => rfl
    | str s => rfl
    | obj fields => rfl
    | arr elems => rfl
    | fn => rfl

/-- C10: a configured errorHook unconditionally recovers every batch-level
failure — the handler resolves with exactly the errorHook's outcome, even an
undefined value — unlike the afterHook, whose undefined return value falls
back to the dispatch result. -/
theorem c10_errorHook_unconditional (o : Options) (event : Event) (context : Value) :
    (∀ f e, o.errorHook = some f → afterStage o event context = .error e →
      (invoke o event context).result = f event context e) ∧
    (∀ g result meta, o.afterHook = some g →
      (runCore o event context).1 = .ok (result, meta) →
      g event context result meta = .ok .undefined →
      afterStage o event context = .ok result) := by
  constructor
  · intro f e hf hstage
    simp only [invoke, hstage, hf]
  · intro g result meta hg hcore hret
    simp only [afterStage, hcore, hg, hret, Value.isUndefined, if_true]

/-- C6: configuration validation collects every violated constraint
(abortEarly is off) and fails with a single validation error whose message is
the join of one clause per violation. -/
theorem c6_validation_reports_all (raw : Value)
    (h : 2 ≤ (handlerOptionsErrors raw).length) :
    validateOptions raw =
      .error (.validation (String.intercalate ". " (handlerOptionsErrors raw))) := by
  unfold validateOptions
  split
  · next heq =>
    rw [heq] at h
    simp at h
  · rfl

/-- C8: options containing indexPrefix without indexField, or indexPrefix
together with index, are rejected at construction time, with the
corresponding dependency clause among the reported violations. -/
theorem c8_indexPrefix_rules (raw : Value) :
    (hasOpt raw "indexPrefix" = true → hasOpt raw "indexField" = false →
      "\"indexPrefix\" missing required peer \"indexField\"" ∈ handlerOptionsErrors raw ∧
      ∃ msg, validateOptions raw = .error (.validation msg)) ∧
    (hasOpt raw "indexPrefix" = true → hasOpt raw "index" = true →
      "\"index\" conflict with forbidden peer \"indexPrefix\"" ∈ handlerOptionsErrors raw ∧
      ∃ msg, validateOptions raw = .error (.validation msg)) := by
  have hfail : ∀ c, c ∈ handlerOptionsErrors raw →
      ∃ msg, validateOptions raw = .error (.validation msg) := by
    intro c hc
    unfold validateOptions
    split
    · next heq =>
      rw [heq] at hc
      simp at hc
    · next es heq =>
      exact ⟨_, rfl⟩
  constructor
  · intro h1 h2
    have hmem : "\"indexPrefix\" missing required peer \"indexField\"" ∈
        handlerOptionsErrors raw := by
      cases raw
      case obj fields => simp [handlerOptionsErrors, ruleClauses, h1, h2]
      all_goals simp [hasOpt, Value.lookup, Value.isUndefined] at h1
    exact ⟨hmem, hfail _ hmem⟩
  · intro h1 h2
    have hmem : "\"index\" conflict with forbidden peer \"indexPrefix\"" ∈
        handlerOptionsErrors raw := by
      cases raw
      case obj fields => simp [handlerOptionsErrors, ruleClauses, h1, h2]
      all_goals simp [hasOpt, Value.lookup, Value.isUndefined] at h1
    exact ⟨hmem, hfail _ hmem⟩

def wKeys : Value := .obj [("id", .str "k1")]

def wNew : Value := .obj [("id", .str "k1"), ("v", .num 5)]

def wRecordInsert : ChangeRecord := ⟨"INSERT", ⟨wKeys, wNew, .undefined⟩⟩

def wRecordBad : ChangeRecord := ⟨"UPSERT", ⟨wKeys, wNew, .undefined⟩⟩

def wEvent : Event := ⟨[wRecordInsert]⟩

def wEventBad : Event := ⟨[wRecordBad]⟩

def wContext : Value := .null

def wClientOk : Nat → BulkRequest → Except JsError Value := fun _ _ => .ok emptyBulkResult

def wClientFail : Nat → BulkRequest → Except JsError Value := fun _ _ => .error (.other "boom")

def wHook : Event → Value → JsError → Except JsError Unit := fun _ _ _ => .ok ()

def wDropHook : Value → Value → Except JsError Value := fun _ _ => .ok .undefined

def wAfterUndef : Event → Value → Value → List Meta → Except JsError Value :=
  fun _ _ _ _ => .ok .undefined

def wErrHook : Event → Value → JsError → Except JsError Value := fun _ _ _ => .ok .undefined

def wVres : Value → Value → Except JsError Value := fun _ _ => .ok (.str "1")

def wDescr : ActionDescription := ⟨"i", some (.str "t"), .str "k1", none, none, none⟩

def wDescrNoType : ActionDescription := ⟨"i", none, .str "k1", none, none, none⟩

def wDescrRemove : ActionDescription := ⟨"i", some (.str "t"), .str "a", none, some 3, some "external"⟩

def wOptions : Options := { client := wClientOk, index := some "i", type := some "t" }

def wOptionsHook : Options :=
  { client := wClientOk, index := some "i", type := some "t", recordErrorHook := some wHook }

def wOptionsNoType : Options := { client := wClientOk, index := some "i" }

def wOptionsDrop : Options :=
  { client := wClientOk, index := some "i", type := some "t",
    transformRecordHook := some wDropHook }

def wOptionsAfter : Options :=
  { client := wClientOk, index := some "i", type := some "t",
    transformRecordHook := some wDropHook, afterHook := some wAfterUndef }

def wOptionsErr : Options :=
  { client := wClientOk, index := some "i", type := some "t", errorHook := some wErrHook }

def wOptionsRetry : Options :=
  { client := wClientFail, index := some "i", type := some "t", retryOptions := some 2 }

def wOptionsOnce : Options := { client := wClientFail, index := some "i", type := some "t" }

def wOptionsVer : Options :=
  { client := wClientOk, index := some "i", type := some "t", versionField := some "field2" }

def wOptionsVres : Options :=
  { client := wClientOk, index := some "i", type := some "t", versionResolver := some wVres }

def wRecordRemove : ChangeRecord :=
  ⟨"REMOVE", ⟨.obj [("field1", .str "a")], .undefined, .obj [("field1", .str "a"), ("field2", .num 3)]⟩⟩

def wPrVer : ParsedRecord := parseRecord ⟨"INSERT", ⟨.obj [("k", .str "a")], .obj [("field2", .num 0)], .undefined⟩⟩

def wPrVerBad : ParsedRecord := parseRecord ⟨"INSERT", ⟨.obj [("k", .str "a")], .obj [("field2", .str "1")], .undefined⟩⟩

def wPrVerNeg : ParsedRecord := parseRecord ⟨"INSERT", ⟨.obj [("k", .str "a")], .obj [("field2", .num (-1))], .undefined⟩⟩

def wAcc : Acc :=
  ⟨[.index wDescr, .document wNew],
   [⟨wRecordInsert, parseRecord wRecordInsert, .index wDescr, wNew⟩], []⟩

def c6raw : Value :=
  .obj [("separator", .num 5), ("index", .str "i"), ("indexField", .str "f"), ("type", .str "t")]

def c8rawA : Value := .obj [("indexPrefix", .str "foo")]

def c8rawB : Value := .obj [("index", .str "i"), ("indexPrefix", .str "p"), ("type", .str "t")]

/-- Witness for C1 at a concrete unknown-event record. -/
theorem c1_record_error_routing_witness :
    recordStep wOptionsHook wEventBad wContext initAcc wRecordBad =
      .ok ⟨[], [], [.unknownEventName wRecordBad]⟩ ∧
    foldRecords wOptions wEventBad wContext [wRecordBad] initAcc =
      .error (.unknownEventName wRecordBad) := by
  have htrH : transformRecord wOptionsHook wRecordBad = .error (.unknownEventName wRecordBad) :=
    (c1_record_error_routing wOptionsHook wEventBad wContext initAcc wRecordBad
      (.unknownEventName wRecordBad)).2.2.2 wDescr wNew (by decide) (by decide) (by decide) (by rfl)
  have htrN : transformRecord wOptions wRecordBad = .error (.unknownEventName wRecordBad) :=
    (c1_record_error_routing wOptions wEventBad wContext initAcc wRecordBad
      (.unknownEventName wRecordBad)).2.2.2 wDescr wNew (by decide) (by decide) (by decide) (by rfl)
  constructor
  · exact (c1_record_error_routing wOptionsHook wEventBad wContext initAcc wRecordBad
      (.unknownEventName wRecordBad)).1 wHook () rfl htrH rfl
  · exact ((c1_record_error_routing wOptions wEventBad wContext initAcc wRecordBad
      (.unknownEventName wRecordBad)).2.1 rfl htrN).2 []

/-- Witness for C3: a remove with versionField resolving 3 emits one delete
descriptor carrying version 4 and versionType external. -/
theorem c3_remove_increments_version_witness :
    transformRecord wOptionsVer wRecordRemove =
      .ok (some ([.delete ⟨"i", some (.str "t"), .str "a", none, some 4, some "external"⟩],
        ⟨wRecordRemove, parseRecord wRecordRemove,
          .delete ⟨"i", some (.str "t"), .str "a", none, some 4, some "external"⟩, .obj []⟩)) ∧
    wDescrRemove.versionType = some "external" := by
  have h := c3_remove_increments_version wOptionsVer wRecordRemove wDescrRemove (.obj []) 3 (by rfl) rfl
  exact ⟨h.2.1 rfl, h.1⟩

/-- Witness for C4: every record dropped by the transform hook. -/
theorem c4_empty_batch_short_circuit_witness :
    runCore wOptionsDrop wEvent wContext = (.ok (emptyBulkResult, []), []) ∧
    (invoke wOptionsDrop wEvent wContext).result = .ok emptyBulkResult := by
  have h := c4_empty_batch_short_circuit wOptionsDrop wEvent wContext initAcc rfl rfl
  exact ⟨h.1, h.2.2 rfl⟩

/-- Witness for C5: single call with no retryOptions, three calls and the
client's own error with retries = 2. -/
theorem c5_retry_dispatch_witness :
    (runCore wOptionsOnce wEvent wContext).2 = [⟨wOptionsOnce.bulk, wAcc.actions⟩] ∧
    (runCore wOptionsRetry wEvent wContext).2 =
      List.replicate 3 ⟨wOptionsRetry.bulk, wAcc.actions⟩ ∧
    (runCore wOptionsRetry wEvent wContext).1 = .error (.other "boom") := by
  have h1 := (c5_retry_dispatch wOptionsOnce wEvent wContext wAcc (by rfl) (by simp [wAcc])).1 rfl
  have h2 := (c5_retry_dispatch wOptionsRetry wEvent wContext wAcc (by rfl) (by simp [wAcc])).2 2
    (.other "boom") rfl (fun _ => rfl)
  exact ⟨h1, h2.1, h2.2⟩

/-- Witness for C6: two simultaneous violations are reported together. -/
theorem c6_validation_reports_all_witness :
    handlerOptionsErrors c6raw =
      ["child \"separator\" fails because [\"separator\" must be a string]",
       "\"options\" contains a conflict between exclusive peers [index, indexField]"] ∧
    validateOptions c6raw =
      .error (.validation (String.intercalate ". " (handlerOptionsErrors c6raw))) := by
  have herr : handlerOptionsErrors c6raw =
      ["child \"separator\" fails because [\"separator\" must be a string]",
       "\"options\" contains a conflict between exclusive peers [index, indexField]"] := rfl
  exact ⟨herr, c6_validation_reports_all c6raw (by rw [herr]; decide)⟩

/-- Witness for C7: version 0 attached verbatim; non-number and negative
values rejected with the labeled messages, for field- and resolver-sourced
versions. -/
theorem c7_version_validation_witness :
    resolveVersionInto wOptionsVer wPrVer (.obj []) wDescr =
      .ok { wDescr with version := some 0, versionType := some "external" } ∧
    resolveVersionInto wOptionsVer wPrVerBad (.obj []) wDescr =
      .error (.validation "\"field2\" must be a number") ∧
    resolveVersionInto wOptionsVer wPrVerNeg (.obj []) wDescr =
      .error (.validation "\"field2\" must be larger than or equal to 0") ∧
    resolveVersionInto wOptionsVres wPrVer (.obj []) wDescr =
      .error (.validation "\"resolved version\" must be a number") := by
  refine ⟨?_, ?_, ?_, ?_⟩
  · exact (c7_version_validation wOptionsVer wPrVer (.obj []) wDescr).1 "field2" 0
      rfl rfl rfl (by decide)
  · exact (c7_version_validation wOptionsVer wPrVerBad (.obj []) wDescr).2.2.1 "field2"
      (.str "1") rfl rfl rfl (fun n h => Value.noConfusion h) (fun h => Value.noConfusion h)
  · exact (c7_version_validation wOptionsVer wPrVerNeg (.obj []) wDescr).2.1 "field2" (-1)
      rfl rfl rfl (by decide)
  · exact (c7_version_validation wOptionsVres wPrVer (.obj []) wDescr).2.2.2 wVres
      (.str "1") rfl rfl rfl (fun n h => Value.noConfusion h) (fun h => Value.noConfusion h)

/-- Witness for C8: indexPrefix alone and indexPrefix next to index are both
rejected with the dependency clauses. -/
theorem c8_indexPrefix_rules_witness :
    ("\"indexPrefix\" missing required peer \"indexField\"" ∈ handlerOptionsErrors c8rawA ∧
      ∃ msg, validateOptions c8rawA = .error (.validation msg)) ∧
    ("\"index\" conflict with forbidden peer \"indexPrefix\"" ∈ handlerOptionsErrors c8rawB ∧
      ∃ msg, validateOptions c8rawB = .error (.validation msg)) :=
  ⟨(c8_indexPrefix_rules c8rawA).1 rfl rfl, (c8_indexPrefix_rules c8rawB).2 rfl rfl⟩

/-- Witness for C9: literal type, and omission when neither type source is
configured. -/
theorem c9_type_resolution_witness :
    wDescr._type = some (.str "t") ∧ wDescrNoType._type = none := by
  constructor
  · exact (c9_type_resolution wOptions wRecordInsert wDescr wNew (by rfl)).1 "t" rfl (by decide)
  · exact (c9_type_resolution wOptionsNoType wRecordInsert wDescrNoType wNew (by rfl)).2.2 rfl rfl

/-- Witness for C10: the errorHook's undefined return value is the handler
result; the afterHook's undefined return value falls back. -/
theorem c10_errorHook_unconditional_witness :
    (invoke wOptionsErr wEventBad wContext).result = .ok .undefined ∧
    afterStage wOptionsAfter wEvent wContext = .ok emptyBulkResult := by
  constructor
  · exact (c10_errorHook_unconditional wOptionsErr wEventBad wContext).1 wErrHook
      (.unknownEventName wRecordBad) rfl rfl
  · exact (c10_errorHook_unconditional wOptionsAfter wEvent wContext).2 wAfterUndef
      emptyBulkResult [] rfl rfl rfl

end D2E
